import Mathlib

/-!
Formal model of the rust-jsonrpc client library (src/lib.rs and
src/reqwest_client.rs): the JSON-RPC 2.0 request/response data model,
response extraction, and the client's request building, nonce discipline,
and reply validation.  External collaborators (the strason JSON engine, the
reqwest HTTP transport, serde deserialization) are embedded abstractly at
their interface boundary; everything else follows the Rust source.
-/

namespace Jsonrpc

/-- JSON values, mirroring the external strason `Json` tree
(`Null`, `Bool`, `Num`, `Str`, `Arr`, `Obj`).  Numbers are kept as their
literal decimal text, as strason stores them.  Arrays and objects are
presented first-order as right-nested cons chains (`arrNil`/`arrCons`,
`objNil`/`objCons`), an isomorphic rendering of `Arr(Vec<Json>)` and
`Obj(Vec<(String, Json)>)` that keeps structural equality decidable. -/
inductive Json where
  | null
  | bool (b : Bool)
  | num (s : String)
  | str (s : String)
  | arrNil
  | arrCons (hd tl : Json)
  | objNil
  | objCons (key : String) (val tl : Json)
deriving DecidableEq, Repr

/-- Embed a list of JSON values as a JSON array. -/
def Json.arr (elems : List Json) : Json :=
  elems.foldr Json.arrCons Json.arrNil

/-- Modelled from the spec: `RpcError` lives in `error.rs`, which is not
among the sources; its shape (`code` signed integer, `message` string,
`data` optional JSON value) is given by spec section 3 and by its use in
`lib.rs`. -/
structure RpcError where
  code : Int
  message : String
  data : Option Json
deriving DecidableEq, Repr

/-- A JSONRPC request object (`Request` in `lib.rs`): `method`, ordered
`params`, a JSON `id`, and an optional `jsonrpc` version string. -/
structure Request where
  method : String
  params : List Json
  id : Json
  jsonrpc : Option String
deriving DecidableEq, Repr

/-- A JSONRPC response object (`Response` in `lib.rs`): optional `result`,
optional `error`, a JSON `id`, and an optional `jsonrpc` version string. -/
structure Response where
  result : Option Json
  error : Option RpcError
  id : Json
  jsonrpc : Option String
deriving DecidableEq, Repr

/-- Modelled from the spec: the error taxonomy lives in `error.rs`, which is
not among the sources.  Variants and payloads follow spec section 7 and the
constructors used in `lib.rs` and `reqwest_client.rs`: `Json` wraps a JSON
decode failure, `Transport` a transport failure, `Rpc` the server's error
object, plus `NoErrorOrResult`, `VersionMismatch` and `NonceMismatch`.
Wrapped foreign error payloads are embedded as their message strings. -/
inductive Error where
  | Json (err : String)
  | Transport (err : String)
  | Rpc (e : RpcError)
  | NoErrorOrResult
  | VersionMismatch
  | NonceMismatch
deriving DecidableEq, Repr

/-- `Response::result` from `lib.rs`: if `error` is present, fail with
`Error::Rpc` carrying a clone of it; otherwise deserialize the `result`
value if present (decode failure wrapped as `Error::Json`), and fail with
`Error::NoErrorOrResult` if `result` is absent.  Serde's
`into_deserialize::<T>()` is embedded as the decoder argument `dec`.
(Named `resultT` here because the Lean record field `result` occupies the
source name `Response::result`.) -/
def Response.resultT {T : Type} (r : Response) (dec : Json → Except String T) :
    Except Error T :=
  match r.error with
  | some e => Except.error (Error.Rpc e)
  | none =>
    match r.result with
    | some res => (dec res).mapError Error.Json
    | none => Except.error Error.NoErrorOrResult

/-- `Response::into_result` from `lib.rs`: identical logic to
`Response::result`, but consuming the response (ownership is not observable
in the embedding). -/
def Response.into_result {T : Type} (r : Response) (dec : Json → Except String T) :
    Except Error T :=
  match r.error with
  | some e => Except.error (Error.Rpc e)
  | none =>
    match r.result with
    | some res => (dec res).mapError Error.Json
    | none => Except.error Error.NoErrorOrResult

/-- `Response::check_error` from `lib.rs`: fail with `Error::Rpc` when
`error` is present, succeed otherwise; `result` is never inspected. -/
def Response.check_error (r : Response) : Except Error Unit :=
  match r.error with
  | some e => Except.error (Error.Rpc e)
  | none => Except.ok ()

/-- `Response::is_none` from `lib.rs`: whether the `result` field is empty. -/
def Response.is_none (r : Response) : Bool :=
  r.result.isNone

/-- A server error value used as a concrete test input (scenario 2 of the
spec: code -77, message "test4", data `true`). -/
def rpcerr0 : RpcError :=
  { code := -77, message := "test4", data := some (Json.bool true) }

/-- A concrete Response carrying both a `result` and an `error`. -/
def resp_both : Response :=
  { result := some (Json.str "test2"), error := some rpcerr0,
    id := Json.num "101", jsonrpc := some "2.0" }

/-- A concrete Response carrying neither `result` nor `error`. -/
def resp_empty : Response :=
  { result := none, error := none, id := Json.num "66", jsonrpc := some "2.0" }

/-- C2: whenever a Response's `error` field is present, `result` fails with
an `Rpc` error carrying the server's `RpcError` value unchanged, regardless
of the `result` field, and likewise for `into_result`; the `result` value is
never returned. -/
theorem result_error_precedence {T : Type} (dec : Json → Except String T)
    (r : Response) (e : RpcError) (he : r.error = some e) :
    Response.resultT r dec = Except.error (Error.Rpc e) ∧
    Response.into_result r dec = Except.error (Error.Rpc e) := by
  constructor <;> simp [Response.resultT, Response.into_result, he]

/-- Witness for C2 at a concrete Response holding both fields. -/
theorem result_error_precedence_witness :
    resp_both.error = some rpcerr0 ∧
    (Response.resultT resp_both (fun j => Except.ok j) =
        Except.error (Error.Rpc rpcerr0) ∧
      Response.into_result resp_both (fun j => Except.ok j) =
        Except.error (Error.Rpc rpcerr0)) :=
  ⟨rfl, result_error_precedence (fun j => Except.ok j) resp_both rpcerr0 rfl⟩

/-- C5: whenever both `result` and `error` are absent, `result` and
`into_result` fail with `NoErrorOrResult`. -/
theorem result_no_error_or_result {T : Type} (dec : Json → Except String T)
    (r : Response) (hres : r.result = none) (herr : r.error = none) :
    Response.resultT r dec = Except.error Error.NoErrorOrResult ∧
    Response.into_result r dec = Except.error Error.NoErrorOrResult := by
  constructor <;> simp [Response.resultT, Response.into_result, hres, herr]

/-- Witness for C5 at a concrete empty Response. -/
theorem result_no_error_or_result_witness :
    resp_empty.result = none ∧ resp_empty.error = none ∧
    (Response.resultT resp_empty (fun j => Except.ok j) =
        Except.error Error.NoErrorOrResult ∧
      Response.into_result resp_empty (fun j => Except.ok j) =
        Except.error Error.NoErrorOrResult) :=
  ⟨rfl, rfl, result_no_error_or_result (fun j => Except.ok j) resp_empty rfl rfl⟩

/-- C6: for every Response and every decoder, the borrowing extraction
`result` and the consuming extraction `into_result` produce the same
outcome: the same decoded success value or the same error. -/
theorem result_into_result_agree {T : Type} (dec : Json → Except String T)
    (r : Response) :
    Response.resultT r dec = Response.into_result r dec := rfl

/-- C7: `is_none` is true exactly when the `result` field is absent, and
its value is independent of the `error` field. -/
theorem is_none_iff_result_absent (r : Response) :
    (Response.is_none r = true ↔ r.result = none) ∧
    (∀ e : Option RpcError, Response.is_none { r with error := e } =
      Response.is_none r) := by
  refine ⟨?_, fun e => rfl⟩
  simp [Response.is_none, Option.isNone_iff_eq_none]

/-- C8: `check_error` succeeds exactly when `error` is absent, otherwise it
fails with the `Rpc` error carrying that `RpcError`; the `result` field has
no influence on the outcome. -/
theorem check_error_spec (r : Response) :
    (Response.check_error r = Except.ok () ↔ r.error = none) ∧
    (∀ e : RpcError, r.error = some e →
      Response.check_error r = Except.error (Error.Rpc e)) ∧
    (∀ res : Option Json, Response.check_error { r with result := res } =
      Response.check_error r) := by
  refine ⟨?_, fun e he => by simp [Response.check_error, he], fun res => rfl⟩
  cases h : r.error <;> simp [Response.check_error, h]

/-- Witness for C8 at a concrete Response with an error present. -/
theorem check_error_spec_witness :
    resp_both.error = some rpcerr0 ∧
    Response.check_error resp_both = Except.error (Error.Rpc rpcerr0) :=
  ⟨rfl, (check_error_spec resp_both).2.1 rpcerr0 rfl⟩

/-- A parsed endpoint address, standing in for the external `reqwest::Url`
type; only its identity matters to this model. -/
structure Url where
  raw : String
deriving DecidableEq, Repr

/-- A handle to a remote JSONRPC server (`Client` in `reqwest_client.rs`):
endpoint url, optional credentials, and the mutex-guarded nonce counter
(the reqwest transport handle carries no protocol state and is omitted).
The `u64` counter is embedded as a natural number kept below `2 ^ 64`. -/
structure Client where
  url : Url
  user : Option String
  pass : Option String
  nonce : Nat
deriving DecidableEq, Repr

/-- `Client::new` from `reqwest_client.rs`.  `Url::parse(url)` is external;
its outcome is passed in as `parsedUrl`, and the `.unwrap()` on a failed
parse is modelled as returning `none`.  The
`debug_assert!(pass.is_none() || user.is_some())` credential check is
modelled as rejecting construction (returning `none`) when it fails, its
behavior in a debug build. -/
def Client.new (parsedUrl : Option Url) (user pass : Option String) :
    Option Client :=
  if pass.isNone || user.isSome then
    match parsedUrl with
    | some url => some { url := url, user := user, pass := pass, nonce := 0 }
    | none => none
  else
    none

/-- `Client::execute` from `reqwest_client.rs`, from the point where the
reply body has been received: serialization, the HTTP round trip and JSON
decoding are external, so their combined outcome is passed in as `reply`
(a decoded `Response`, or the `Error` already produced by a failed
serialization / transport / decode step, which the source's `?` operators
propagate unchanged).  The decoded response is then validated exactly as in
the source: `jsonrpc` must be present and equal to `"2.0"`, else
`VersionMismatch`; then the reply `id` must equal the request `id`, else
`NonceMismatch`. -/
def Client.execute (request : Request) (reply : Except Error Response) :
    Except Error Response :=
  match reply with
  | Except.error e => Except.error e
  | Except.ok response =>
    match response.jsonrpc with
    | some jsonrpc =>
      if jsonrpc = "2.0" then
        if response.id ≠ request.id then
          Except.error Error.NonceMismatch
        else
          Except.ok response
      else
        Except.error Error.VersionMismatch
    | none => Except.error Error.VersionMismatch

/-- A concrete outgoing request with id `1`. -/
def req0 : Request :=
  { method := "test", params := [], id := Json.num "1", jsonrpc := some "2.0" }

/-- A concrete decoded reply whose `jsonrpc` field is absent but which is
otherwise flawless: its `id` matches `req0` and it carries a result. -/
def resp_noversion : Response :=
  { result := some Json.null, error := none, id := Json.num "1",
    jsonrpc := none }

/-- A concrete decoded reply with a wrong version string and a wrong id. -/
def resp_badboth : Response :=
  { result := some Json.null, error := none, id := Json.num "2",
    jsonrpc := some "1.0" }

/-- C1 counterexample: a decoded Response whose `jsonrpc` field is absent
does fail version validation — `execute` returns `VersionMismatch` even
though the id matches and a result is present — contradicting the claim
that an absent `jsonrpc` field passes. -/
theorem execute_version_absent_refutes :
    resp_noversion.jsonrpc = none ∧ resp_noversion.id = req0.id ∧
    Client.execute req0 (Except.ok resp_noversion) =
      Except.error Error.VersionMismatch :=
  ⟨rfl, rfl, rfl⟩

/-- C1 amended: `execute` fails with `VersionMismatch` exactly when the
decoded Response's `jsonrpc` field is not the present value `"2.0"` — that
is, when it is absent, or present and different from `"2.0"`. -/
theorem execute_version_mismatch_iff (request : Request) (response : Response) :
    Client.execute request (Except.ok response) =
        Except.error Error.VersionMismatch ↔
      response.jsonrpc ≠ some "2.0" := by
  rcases response with ⟨res, err, i, v⟩
  rcases v with _ | j
  · simp [Client.execute]
  · by_cases hj : j = "2.0"
    · subst hj
      by_cases hid : i = request.id <;> simp [Client.execute, hid]
    · simp [Client.execute, hj]

/-- C4: version validation precedes identifier correlation — a decoded
Response carrying a present `jsonrpc` value different from `"2.0"`
together with an id unequal to the request's id fails with
`VersionMismatch`, not `NonceMismatch`. -/
theorem execute_version_before_nonce (request : Request) (response : Response)
    (j : String) (hj : response.jsonrpc = some j) (hne : j ≠ "2.0")
    (_hid : response.id ≠ request.id) :
    Client.execute request (Except.ok response) =
      Except.error Error.VersionMismatch := by
  simp [Client.execute, hj, hne]

/-- Witness for C4 at a reply with version `"1.0"` and id `2` against a
request with id `1`. -/
theorem execute_version_before_nonce_witness :
    resp_badboth.jsonrpc = some "1.0" ∧ "1.0" ≠ "2.0" ∧
    resp_badboth.id ≠ req0.id ∧
    Client.execute req0 (Except.ok resp_badboth) =
      Except.error Error.VersionMismatch :=
  ⟨rfl, by decide, by decide,
    execute_version_before_nonce req0 resp_badboth "1.0" rfl (by decide)
      (by decide)⟩

/-- C10: a decoded Response with `jsonrpc` absent fails with
`VersionMismatch`; only a Response whose `jsonrpc` field is present and
exactly `"2.0"` passes version validation. -/
theorem execute_version_absent_mismatch (request : Request) (response : Response) :
    (response.jsonrpc = none →
      Client.execute request (Except.ok response) =
        Except.error Error.VersionMismatch) ∧
    (Client.execute request (Except.ok response) ≠
        Except.error Error.VersionMismatch →
      response.jsonrpc = some "2.0") := by
  constructor
  · intro h
    simp [Client.execute, h]
  · intro h
    rcases hv : response.jsonrpc with _ | j
    · exact absurd (by simp [Client.execute, hv]) h
    · by_cases hj : j = "2.0"
      · rw [hj]
      · exact absurd (by simp [Client.execute, hv, hj]) h

/-- Witness for C10 at the version-less reply `resp_noversion`. -/
theorem execute_version_absent_mismatch_witness :
    resp_noversion.jsonrpc = none ∧
    Client.execute req0 (Except.ok resp_noversion) =
      Except.error Error.VersionMismatch :=
  ⟨rfl, (execute_version_absent_mismatch req0 resp_noversion).1 rfl⟩

/-- `Json::from(u64)` from the strason interface: a `u64` counter value is
encoded as the JSON number whose text is its decimal numeral, which is what
`Nat.repr` produces. -/
def Json.fromU64 (n : Nat) : Json :=
  Json.num (Nat.repr n)

/-- `Client::build_request` from `reqwest_client.rs`: lock the shared nonce,
increment it (a `u64`, so modulo `2 ^ 64`), and return the new Client state
together with a Request whose `id` is the JSON encoding of the
post-increment counter value and whose `jsonrpc` is `"2.0"`.  The
mutex-guarded mutation is embedded as explicit state passing. -/
def Client.build_request (c : Client) (name : String) (params : List Json) :
    Client × Request :=
  let nonce := (c.nonce + 1) % 2 ^ 64
  ({ c with nonce := nonce },
   { method := name, params := params, id := Json.fromU64 nonce,
     jsonrpc := some "2.0" })

/-- `Client::last_nonce` from `reqwest_client.rs`: read the counter. -/
def Client.last_nonce (c : Client) : Nat :=
  c.nonce

/-- A sequence of `build_request` calls (method name and params for each),
threading the Client state and collecting the built Requests in order. -/
def runBuilds (c : Client) : List (String × List Json) → Client × List Request
  | [] => (c, [])
  | call :: rest =>
    let built := Client.build_request c call.1 call.2
    let next := runBuilds built.1 rest
    (next.1, built.2 :: next.2)

/-- Numeric value of a decimal digit character (inverse of `Nat.digitChar`
on digits 0 through 9). -/
def decodeDigit (c : Char) : Nat :=
  if c = '0' then 0 else if c = '1' then 1 else if c = '2' then 2 else
  if c = '3' then 3 else if c = '4' then 4 else if c = '5' then 5 else
  if c = '6' then 6 else if c = '7' then 7 else if c = '8' then 8 else 9

/-- Decimal value of a digit string, most significant digit first. -/
def decodeDecimal (l : List Char) : Nat :=
  l.foldl (fun a c => a * 10 + decodeDigit c) 0

/-- Shift the accumulator `a` past the decimal digits of `n`: the numeric
effect of appending the numeral of `n` after the digits already read. -/
def pushDigits (a n : Nat) : Nat :=
  if h : n / 10 = 0 then a * 10 + n
  else pushDigits a (n / 10) * 10 + n % 10
termination_by n
decreasing_by omega

theorem decodeDigit_digitChar : ∀ m < 10, decodeDigit (Nat.digitChar m) = m := by
  decide

theorem pushDigits_zero (n : Nat) : pushDigits 0 n = n := by
  induction n using Nat.strong_induction_on with
  | _ n ih =>
    unfold pushDigits
    split
    · omega
    · rename_i h
      rw [ih (n / 10) (by omega)]
      omega

theorem foldl_toDigitsCore (fuel : Nat) :
    ∀ (n : Nat) (ds : List Char) (a : Nat), n < fuel →
      List.foldl (fun acc c => acc * 10 + decodeDigit c) a
          (Nat.toDigitsCore 10 fuel n ds) =
        List.foldl (fun acc c => acc * 10 + decodeDigit c) (pushDigits a n) ds := by
  induction fuel with
  | zero => intro n ds a h; omega
  | succ fuel ih =>
    intro n ds a h
    have hmlt : n % 10 < 10 := by omega
    simp only [Nat.toDigitsCore]
    by_cases h0 : n / 10 = 0
    · have hn : n < 10 := by omega
      rw [if_pos h0, List.foldl_cons, decodeDigit_digitChar (n % 10) hmlt,
        Nat.mod_eq_of_lt hn, pushDigits, dif_pos h0]
    · rw [if_neg h0, ih (n / 10) _ a (by omega), List.foldl_cons,
        decodeDigit_digitChar (n % 10) hmlt]
      conv_rhs => rw [pushDigits, dif_neg h0]

/-- The decimal numeral printer of the core library is left-inverted by
`decodeDecimal`, hence injective. -/
theorem decodeDecimal_toDigits (n : Nat) :
    decodeDecimal (Nat.toDigits 10 n) = n := by
  unfold decodeDecimal Nat.toDigits
  rw [foldl_toDigitsCore (n + 1) n [] 0 (Nat.lt_succ_self n)]
  exact pushDigits_zero n

theorem repr_inj (m n : Nat) (h : Nat.repr m = Nat.repr n) : m = n := by
  have hd : Nat.toDigits 10 m = Nat.toDigits 10 n := congrArg String.data h
  calc m = decodeDecimal (Nat.toDigits 10 m) := (decodeDecimal_toDigits m).symm
    _ = decodeDecimal (Nat.toDigits 10 n) := by rw [hd]
    _ = n := decodeDecimal_toDigits n

theorem fromU64_inj {m n : Nat} (h : Json.fromU64 m = Json.fromU64 n) :
    m = n :=
  repr_inj m n (Json.num.inj h)

/-- State and request ids produced by a block of sequential `build_request`
calls, as long as the `u64` counter does not overflow. -/
theorem runBuilds_spec (calls : List (String × List Json)) (c : Client)
    (h : c.nonce + calls.length < 2 ^ 64) :
    (runBuilds c calls).1 = { c with nonce := c.nonce + calls.length } ∧
    (runBuilds c calls).2.map (fun r => (r.id, r.jsonrpc)) =
      (List.range calls.length).map
        (fun k => (Json.fromU64 (c.nonce + k + 1), some "2.0")) := by
  induction calls generalizing c with
  | nil => simp [runBuilds]
  | cons call rest ih =>
    have h1 : c.nonce + 1 < 2 ^ 64 := by
      simp only [List.length_cons] at h
      omega
    have hrest : ({ c with nonce := c.nonce + 1 } : Client).nonce + rest.length
        < 2 ^ 64 := by
      simp only [List.length_cons] at h
      show c.nonce + 1 + rest.length < 2 ^ 64
      omega
    have hstep : Client.build_request c call.1 call.2 =
        ({ c with nonce := c.nonce + 1 },
         { method := call.1, params := call.2,
           id := Json.fromU64 (c.nonce + 1), jsonrpc := some "2.0" }) := by
      have hm : (c.nonce + 1) % 2 ^ 64 = c.nonce + 1 := Nat.mod_eq_of_lt h1
      simp only [Client.build_request, hm]
    obtain ⟨ih1, ih2⟩ := ih { c with nonce := c.nonce + 1 } hrest
    constructor
    · have hfst : (runBuilds c (call :: rest)).1 =
          (runBuilds { c with nonce := c.nonce + 1 } rest).1 := by
        simp only [runBuilds, hstep]
      rw [hfst, ih1, List.length_cons]
      congr 1
      show c.nonce + 1 + rest.length = c.nonce + (rest.length + 1)
      omega
    · have hsnd : (runBuilds c (call :: rest)).2 =
          ({ method := call.1, params := call.2, id := Json.fromU64 (c.nonce + 1),
             jsonrpc := some "2.0" } : Request) ::
            (runBuilds { c with nonce := c.nonce + 1 } rest).2 := by
        simp only [runBuilds, hstep]
      rw [hsnd, List.map_cons, ih2, List.length_cons, List.range_succ_eq_map,
        List.map_cons, List.map_map]
      refine List.cons_eq_cons.mpr ⟨rfl, ?_⟩
      refine List.map_congr_left fun k _ => ?_
      simp only [Function.comp_apply, Prod.mk.injEq]
      refine ⟨congrArg Json.fromU64 ?_, trivial⟩
      show c.nonce + 1 + k + 1 = c.nonce + (k + 1) + 1
      omega

/-- C9: constructing a Client with a password but no username is rejected
at construction time, while a username alone, both credentials, or neither
succeed, given a parsable endpoint address. -/
theorem client_new_credential_check (url : Url) (u p : String) :
    Client.new (some url) none (some p) = none ∧
    (Client.new (some url) (some u) none).isSome = true ∧
    (Client.new (some url) (some u) (some p)).isSome = true ∧
    (Client.new (some url) none none).isSome = true :=
  ⟨rfl, rfl, rfl, rfl⟩

/-- C3: on a freshly constructed Client the counter reads 0; after N
sequential `build_request` calls (N within the `u64` counter range) the
counter reads N, the k-th returned Request (counting from 1) has id equal
to the JSON encoding of the post-increment counter value k and `jsonrpc`
field `"2.0"`, and the N returned ids are pairwise distinct. -/
theorem build_request_nonce_discipline (url : Url) (c0 : Client)
    (hnew : Client.new (some url) none none = some c0)
    (calls : List (String × List Json)) (N : Nat) (hN : calls.length = N)
    (hbound : N < 2 ^ 64) :
    Client.last_nonce c0 = 0 ∧
    Client.last_nonce (runBuilds c0 calls).1 = N ∧
    (runBuilds c0 calls).2.map (fun r => (r.id, r.jsonrpc)) =
      (List.range N).map (fun k => (Json.fromU64 (k + 1), some "2.0")) ∧
    ((runBuilds c0 calls).2.map (fun r => r.id)).Nodup := by
  have hc0 : c0 = { url := url, user := none, pass := none, nonce := 0 } := by
    simp only [Client.new, Option.isNone_none, Bool.true_or, if_true] at hnew
    exact (Option.some.inj hnew).symm
  subst hN
  subst hc0
  have spec := runBuilds_spec calls
    { url := url, user := none, pass := none, nonce := 0 }
    (by show 0 + calls.length < 2 ^ 64; omega)
  refine ⟨rfl, ?_, ?_, ?_⟩
  · rw [Client.last_nonce, spec.1]
    show 0 + calls.length = calls.length
    omega
  · rw [spec.2]
    refine List.map_congr_left fun k _ => ?_
    simp only [Prod.mk.injEq]
    exact ⟨congrArg Json.fromU64 (by show 0 + k + 1 = k + 1; omega), trivial⟩
  · have hids : (runBuilds { url := url, user := none, pass := none, nonce := 0 }
        calls).2.map (fun r => r.id) =
        (List.range calls.length).map (fun k => Json.fromU64 (0 + k + 1)) := by
      have hfst := congrArg (List.map Prod.fst) spec.2
      simpa [List.map_map, Function.comp] using hfst
    rw [hids]
    refine List.Nodup.map ?_ (List.nodup_range _)
    intro a b hab
    have := fromU64_inj hab
    omega

/-- The fresh client used by the nonce-discipline witness. -/
def clientFresh : Client :=
  { url := Url.mk "localhost", user := none, pass := none, nonce := 0 }

/-- Three `build_request` calls used by the nonce-discipline witness. -/
def callsThree : List (String × List Json) :=
  [("test", []), ("test", []), ("test", [])]

/-- Witness for C3: three sequential calls on a fresh client. -/
theorem build_request_nonce_discipline_witness :
    Client.new (some (Url.mk "localhost")) none none = some clientFresh ∧
    callsThree.length = 3 ∧ (3 : Nat) < 2 ^ 64 ∧
    (Client.last_nonce clientFresh = 0 ∧
      Client.last_nonce (runBuilds clientFresh callsThree).1 = 3 ∧
      (runBuilds clientFresh callsThree).2.map (fun r => (r.id, r.jsonrpc)) =
        (List.range 3).map (fun k => (Json.fromU64 (k + 1), some "2.0")) ∧
      ((runBuilds clientFresh callsThree).2.map (fun r => r.id)).Nodup) :=
  ⟨rfl, rfl, by decide,
    build_request_nonce_discipline (Url.mk "localhost") clientFresh rfl
      callsThree 3 rfl (by decide)⟩

end Jsonrpc
